import Mathlib

/-!
Shallow embedding of the real-time audio streaming session of
`voice-agent-caladrius` (`src/services/liveClient.ts`, `src/types.ts`),
together with a spec-modelled Audio Frame Codec (the repository's
`src/services/audioUtils.ts` is imported by `liveClient.ts` but is not
present under `src/`).

Times are rationals (seconds on the output device clock).  Observable
callback invocations and device operations are recorded as an `Effect`
trace, in program order.  Object allocation of `AudioBufferSourceNode`s is
modelled by a fresh-id counter `nextId`; the active `Set<AudioBufferSourceNode>`
becomes a duplicate-free list of ids in insertion order.
-/

namespace Caladrius

/-- `ConnectionState` from `src/types.ts`. -/
inductive ConnectionState where
  | DISCONNECTED
  | CONNECTING
  | CONNECTED
  | ERROR
deriving DecidableEq, Repr

/-- The audio-graph nodes that `disconnect()` detaches. -/
inductive NodeKind where
  | sourceNode
  | processorNode
  | analyserNode
deriving DecidableEq, Repr

/-- The two `AudioContext`s owned by the client. -/
inductive CtxKind where
  | inputCtx
  | outputCtx
deriving DecidableEq, Repr

/-- One observable action of the client: a callback invocation
(`onStateChange`, `onError`, `onTranscript`, `onAudioData`) or an operation
on an owned device resource. -/
inductive Effect where
  | stateChange (s : ConnectionState)
  | onError (msg : String)
  | onTranscript (text : String) (isUser : Bool)
  | onAudioData
  | startSource (id : Nat) (t : ℚ)
  | stopSource (id : Nat)
  | stopTracks
  | disconnectNode (k : NodeKind)
  | closeContext (k : CtxKind)
deriving DecidableEq, Repr

/-- The mutable fields of `class LiveClient` (src/services/liveClient.ts,
lines 14-23) that the verified claims concern.  Resource handles are
`Option Unit`: `some ()` for a held handle, `none` for `null`. -/
structure LiveClient where
  sessionPromise : Option Unit := none
  inputAudioContext : Option Unit := none
  outputAudioContext : Option Unit := none
  mediaStream : Option Unit := none
  processor : Option Unit := none
  source : Option Unit := none
  analyser : Option Unit := none
  nextStartTime : ℚ := 0
  sources : List Nat := []
  nextId : Nat := 0
deriving DecidableEq, Repr

/-- The parts of a `LiveServerMessage` that `handleMessage` inspects:
optional transcription texts, the optional base64 inline audio payload, and
the interruption flag. -/
structure LiveServerMessage where
  inputTranscriptionText : Option String := none
  outputTranscriptionText : Option String := none
  inlineAudioData : Option String := none
  interrupted : Bool := false
deriving DecidableEq, Repr

/-- JavaScript truthiness of an optional string field: present and
non-empty. -/
def truthy : Option String → Bool
  | some s => s != ""
  | none => false

/-- Outcome of the two fallible decoding steps inside the `try` block of
`handleMessage`: `base64ToUint8Array` throwing (before the timeline clamp),
`decodeAudioData` throwing (after the clamp), or success with the decoded
buffer's duration in seconds. -/
inductive DecodeOutcome where
  | b64Fail
  | decodeFail
  | ok (duration : ℚ)
deriving DecidableEq, Repr

/-- The audio branch of `handleMessage` (src/services/liveClient.ts lines
158-194), entered when the message carries inline audio and
`outputAudioContext` is present.  Mirrors the source order: decode the
base64 payload, clamp `nextStartTime` to the device clock, decode the audio
(`catch` logs and keeps the state reached so far), then create a source,
start it at `nextStartTime`, advance `nextStartTime` by the buffer
duration, add the source to the active set, and emit one visualization
sample when an analyser exists. -/
def scheduleAudio (st : LiveClient) (deviceNow : ℚ) (outcome : DecodeOutcome) :
    LiveClient × List Effect :=
  match outcome with
  | .b64Fail => (st, [])
  | .decodeFail =>
      ({ st with nextStartTime := max st.nextStartTime deviceNow }, [])
  | .ok d =>
      let start := max st.nextStartTime deviceNow
      let id := st.nextId
      let vis : List Effect := if st.analyser.isSome then [Effect.onAudioData] else []
      ({ st with nextStartTime := start + d,
                 sources := st.sources ++ [id],
                 nextId := id + 1 },
       Effect.startSource id start :: vis)

/-- The interruption branch of `handleMessage` (src/services/liveClient.ts
lines 198-202): stop every source in the active set, clear the set, reset
`nextStartTime` to 0. -/
def interruptFlush (st : LiveClient) : LiveClient × List Effect :=
  ({ st with sources := [], nextStartTime := 0 },
   st.sources.map Effect.stopSource)

/-- The transcription forwarding of `handleMessage`
(src/services/liveClient.ts lines 147-153): a non-empty input
transcription is forwarded with `isUser = true`, a non-empty output
transcription with `isUser = false`. -/
def transcriptEffects (message : LiveServerMessage) : List Effect :=
  (match message.inputTranscriptionText with
   | some t => if t != "" then [Effect.onTranscript t true] else []
   | none => []) ++
  (match message.outputTranscriptionText with
   | some t => if t != "" then [Effect.onTranscript t false] else []
   | none => [])

/-- `handleMessage` (src/services/liveClient.ts lines 146-203): forward
non-empty transcriptions, run the audio branch when inline audio is present
and the output context exists, then run the interruption branch when the
message carries the interruption flag. -/
def handleMessage (st : LiveClient) (message : LiveServerMessage)
    (deviceNow : ℚ) (outcome : DecodeOutcome) : LiveClient × List Effect :=
  let stAndAudio :=
    if truthy message.inlineAudioData && st.outputAudioContext.isSome then
      scheduleAudio st deviceNow outcome
    else (st, [])
  let stAndInt :=
    if message.interrupted then interruptFlush stAndAudio.1
    else (stAndAudio.1, [])
  (stAndInt.1, transcriptEffects message ++ stAndAudio.2 ++ stAndInt.2)

/-- The `ended` listener registered on each source (src/services/liveClient.ts
lines 179-181): natural playback completion removes the unit from the
active set and touches nothing else. -/
def handleEnded (st : LiveClient) (id : Nat) : LiveClient :=
  { st with sources := st.sources.erase id }

/-- `visualize` (src/services/liveClient.ts lines 205-214): reads the
analyser and emits one frame of frequency data through `onAudioData`; no
client state is modified. -/
def visualize (st : LiveClient) : LiveClient × List Effect :=
  if st.analyser.isSome then (st, [Effect.onAudioData]) else (st, [])

/-- `disconnect` (src/services/liveClient.ts lines 246-271).  First effect
is `onStateChange(DISCONNECTED)`; every release step is guarded by the
optional-chaining of the source (`?.`), so an absent resource is skipped;
afterwards the handle fields are set to `null` (the source leaves
`analyser` assigned, and does not touch `nextStartTime`). -/
def disconnect (st : LiveClient) : LiveClient × List Effect :=
  let e0 : List Effect := [Effect.stateChange ConnectionState.DISCONNECTED]
  let e1 : List Effect := if st.mediaStream.isSome then [Effect.stopTracks] else []
  let e2 : List Effect := if st.source.isSome then [Effect.disconnectNode NodeKind.sourceNode] else []
  let e3 : List Effect := if st.processor.isSome then [Effect.disconnectNode NodeKind.processorNode] else []
  let e4 : List Effect := if st.analyser.isSome then [Effect.disconnectNode NodeKind.analyserNode] else []
  let e5 : List Effect := if st.inputAudioContext.isSome then [Effect.closeContext CtxKind.inputCtx] else []
  let e6 : List Effect := if st.outputAudioContext.isSome then [Effect.closeContext CtxKind.outputCtx] else []
  let e7 : List Effect := st.sources.map Effect.stopSource
  ({ st with sessionPromise := none,
             inputAudioContext := none,
             outputAudioContext := none,
             processor := none,
             source := none,
             mediaStream := none,
             sources := [] },
   e0 ++ e1 ++ e2 ++ e3 ++ e4 ++ e5 ++ e6 ++ e7)

/-- `handleClose` (src/services/liveClient.ts lines 216-219): logs and
calls `disconnect()`; no `onError`, no transition to `ERROR`. -/
def handleClose (st : LiveClient) : LiveClient × List Effect :=
  disconnect st

/-- Substring test on character lists, standing for JavaScript
`String.prototype.includes`. -/
def startsWithChars : List Char → List Char → Bool
  | _, [] => true
  | [], _ :: _ => false
  | a :: as, b :: bs => a == b && startsWithChars as bs

/-- Substring test on character lists (helper of `strContains`). -/
def containsChars : List Char → List Char → Bool
  | [], pat => pat.isEmpty
  | a :: rest, pat => startsWithChars (a :: rest) pat || containsChars rest pat

/-- `s.includes(pat)` of JavaScript. -/
def strContains (s pat : String) : Bool :=
  containsChars s.toList pat.toList

/-- The runtime value passed to the `onerror` callback: an `ErrorEvent`
(possibly with an empty message), an `Error`, a plain string, or anything
else. -/
inductive JsError where
  | errorEvent (message : String)
  | jsErr (message : String)
  | jsStr (s : String)
  | otherVal
deriving DecidableEq, Repr

/-- Message classification of `handleError` (src/services/liveClient.ts
lines 224-240): pick a base message by the value's shape (`||` treats the
empty `ErrorEvent` message as falsy), then rewrite 503/unavailable and
network/fetch matches, case-insensitively, to canonical texts. -/
def mapSessionErrorMsg (e : JsError) : String :=
  let errorMsg :=
    match e with
    | .errorEvent m => if m != "" then m else "Connection to the service was lost."
    | .jsErr m => m
    | .jsStr s => s
    | .otherVal => "An error occurred with the voice connection."
  let lowerMsg := errorMsg.toLower
  if strContains lowerMsg "503" || strContains lowerMsg "unavailable" then
    "Service unavailable. Please try again shortly."
  else if strContains lowerMsg "network" || strContains lowerMsg "fetch" then
    "Network error. Please check your internet connection."
  else errorMsg

/-- `handleError` (src/services/liveClient.ts lines 221-244): classify the
error, invoke `onError` with the classified message, then `disconnect()`.
No transition to `ERROR` occurs on this path. -/
def handleError (st : LiveClient) (e : JsError) : LiveClient × List Effect :=
  let msg := mapSessionErrorMsg e
  let r := disconnect st
  (r.1, Effect.onError msg :: r.2)

/-- Message classification of the `catch` block of `connect`
(src/services/liveClient.ts lines 97-107): `error.message || "Failed to
connect"`, then the 503/unavailable and network/fetch rewrites (the 503
test is case-sensitive in the source). -/
def mapConnectErrorMsg (raw : Option String) : String :=
  let msg :=
    match raw with
    | some m => if m != "" then m else "Failed to connect"
    | none => "Failed to connect"
  if strContains msg "503" || strContains msg.toLower "unavailable" then
    "Service unavailable (503). The server is temporarily overloaded. Please try again in a few moments."
  else if strContains msg.toLower "network" || strContains msg.toLower "fetch" then
    "Network error. Please check your internet connection."
  else msg

/-- The `catch` block of `connect` (src/services/liveClient.ts lines
97-112): map the failure to a category message, invoke `onError`, invoke
`onStateChange(ERROR)`, then clean up partial state via `disconnect()`. -/
def connectFailure (st : LiveClient) (raw : Option String) : LiveClient × List Effect :=
  let msg := mapConnectErrorMsg raw
  let r := disconnect st
  (r.1, Effect.onError msg :: Effect.stateChange ConnectionState.ERROR :: r.2)

/-- One inbound event processed by the client: a channel message, natural
completion of a playback unit, a visualization tick, an explicit
`disconnect()`, a channel close, or a channel error. -/
inductive Op where
  | message (msg : LiveServerMessage) (deviceNow : ℚ) (outcome : DecodeOutcome)
  | ended (id : Nat)
  | visualizeTick
  | teardown
  | channelClose
  | channelError (e : JsError)

/-- State transition of a single event. -/
def applyOp (st : LiveClient) : Op → LiveClient
  | .message m now oc => (handleMessage st m now oc).1
  | .ended id => handleEnded st id
  | .visualizeTick => (visualize st).1
  | .teardown => (disconnect st).1
  | .channelClose => (handleClose st).1
  | .channelError e => (handleError st e).1

/-- Whether an event carries the interruption flag. -/
def isInterruption : Op → Bool
  | .message m _ _ => m.interrupted
  | _ => false

/-- Environment assumption: a decoded audio buffer has a nonnegative
duration. -/
def opDurNonneg : Op → Prop
  | .message _ _ (.ok d) => 0 ≤ d
  | _ => True

/-! ### Audio Frame Codec

Modelled from the spec: `src/services/audioUtils.ts` (`createPcmBlob`,
`decodeAudioData`, `base64ToUint8Array`) is imported by
`src/services/liveClient.ts` but is not under `src/`.  Spec section 4.4
describes it as the pure, stateless, bidirectional conversion between
normalized sample buffers and signed 16-bit little-endian PCM. -/

/-- Modelled from the spec: quantization of one normalized sample to a
signed 16-bit value — scale by 2^15, round to nearest, clamp to
[-32768, 32767]. -/
def quantize (x : ℚ) : Int :=
  max (-32768) (min 32767 ⌊x * 32768 + 1/2⌋)

/-- Modelled from the spec: the inverse scaling of one signed 16-bit
sample value back to a normalized sample. -/
def dequantize (n : Int) : ℚ :=
  (n : ℚ) / 32768

/-- Modelled from the spec: little-endian byte pair of a signed 16-bit
sample value (two's complement). -/
def int16ToBytes (n : Int) : Nat × Nat :=
  let u := (n % 65536).toNat
  (u % 256, u / 256)

/-- Modelled from the spec: signed 16-bit sample value of a little-endian
byte pair (two's complement). -/
def bytesToInt16 (lo hi : Nat) : Int :=
  let u := lo + 256 * hi
  if u < 32768 then (u : Int) else (u : Int) - 65536

/-- Modelled from the spec: encode a normalized sample buffer as
little-endian 16-bit PCM wire bytes. -/
def encodeFrame : List ℚ → List Nat
  | [] => []
  | x :: rest =>
      let p := int16ToBytes (quantize x)
      p.1 :: p.2 :: encodeFrame rest

/-- Modelled from the spec: decode 16-bit little-endian PCM wire bytes
into a normalized sample buffer; an odd-length buffer is undecodable. -/
def decodeFrame : List Nat → Option (List ℚ)
  | [] => some []
  | _ :: [] => none
  | lo :: hi :: rest =>
      (decodeFrame rest).map (fun t => dequantize (bytesToInt16 lo hi) :: t)

/-! ### Concrete states and messages used by counterexamples and witnesses -/

/-- A freshly constructed client (all handles `null`, timeline at 0). -/
def client0 : LiveClient := {}

/-- A connected client with an output context and analyser, idle timeline. -/
def clientOut : LiveClient :=
  { outputAudioContext := some (), analyser := some () }

/-- A client mid-playback: two active units, timeline cursor at 2 seconds. -/
def clientBusy : LiveClient :=
  { outputAudioContext := some (), analyser := some (),
    mediaStream := some (), inputAudioContext := some (),
    processor := some (), source := some (), sessionPromise := some (),
    nextStartTime := 2, sources := [0, 1], nextId := 2 }

/-- A message carrying only an inline audio payload. -/
def msgAudio : LiveServerMessage := { inlineAudioData := some "QUJDRA" }

/-- A message carrying only the interruption flag. -/
def msgInterrupt : LiveServerMessage := { interrupted := true }

end Caladrius

namespace Caladrius

/-! ## Helper lemmas -/

theorem mem_transcriptEffects (m : LiveServerMessage) (e : Effect)
    (he : e ∈ transcriptEffects m) : ∃ t u, e = Effect.onTranscript t u := by
  unfold transcriptEffects at he
  rw [List.mem_append] at he
  rcases he with he | he
  · rcases hm : m.inputTranscriptionText with _ | t <;> rw [hm] at he
    · simp at he
    · dsimp only at he
      split_ifs at he <;> simp at he
      exact ⟨t, true, he⟩
  · rcases hm : m.outputTranscriptionText with _ | t <;> rw [hm] at he
    · simp at he
    · dsimp only at he
      split_ifs at he <;> simp at he
      exact ⟨t, false, he⟩

theorem handleMessage_ok_fst (st : LiveClient) (m : LiveServerMessage)
    (now d : ℚ) (ha : truthy m.inlineAudioData = true)
    (hc : st.outputAudioContext.isSome = true) (hi : m.interrupted = false) :
    (handleMessage st m now (.ok d)).1 =
      { st with nextStartTime := max st.nextStartTime now + d,
                sources := st.sources ++ [st.nextId],
                nextId := st.nextId + 1 } := by
  simp [handleMessage, scheduleAudio, ha, hc, hi]

theorem handleMessage_ok_mem (st : LiveClient) (m : LiveServerMessage)
    (now d : ℚ) (ha : truthy m.inlineAudioData = true)
    (hc : st.outputAudioContext.isSome = true) (hi : m.interrupted = false) :
    Effect.startSource st.nextId (max st.nextStartTime now) ∈
      (handleMessage st m now (.ok d)).2 := by
  simp [handleMessage, scheduleAudio, ha, hc, hi]

theorem handleMessage_ctx (st : LiveClient) (m : LiveServerMessage)
    (now : ℚ) (oc : DecodeOutcome) :
    (handleMessage st m now oc).1.outputAudioContext = st.outputAudioContext := by
  rcases oc <;>
    simp [handleMessage, scheduleAudio, interruptFlush] <;>
    split_ifs <;> simp

theorem handleMessage_interrupted_fst (st : LiveClient) (m : LiveServerMessage)
    (now : ℚ) (oc : DecodeOutcome) (hi : m.interrupted = true) :
    (handleMessage st m now oc).1.sources = [] ∧
    (handleMessage st m now oc).1.nextStartTime = 0 := by
  simp [handleMessage, interruptFlush, hi]

theorem handleMessage_interrupted_stops (st : LiveClient) (m : LiveServerMessage)
    (now : ℚ) (oc : DecodeOutcome) (hi : m.interrupted = true) :
    ∀ id ∈ st.sources, Effect.stopSource id ∈ (handleMessage st m now oc).2 := by
  intro id hid
  have hsub : id ∈ (if truthy m.inlineAudioData && st.outputAudioContext.isSome then
      scheduleAudio st now oc else (st, [])).1.sources := by
    split_ifs
    · rcases oc <;> simp [scheduleAudio] <;> first | exact hid | exact Or.inl hid
    · exact hid
  simp only [handleMessage, hi, if_true, interruptFlush, List.mem_append]
  refine Or.inr (List.mem_map.mpr ⟨id, hsub, rfl⟩)

theorem disconnect_effects_shape (st : LiveClient) :
    (disconnect st).2 =
      Effect.stateChange ConnectionState.DISCONNECTED ::
        ((if st.mediaStream.isSome then [Effect.stopTracks] else []) ++
         (if st.source.isSome then [Effect.disconnectNode NodeKind.sourceNode] else []) ++
         (if st.processor.isSome then [Effect.disconnectNode NodeKind.processorNode] else []) ++
         (if st.analyser.isSome then [Effect.disconnectNode NodeKind.analyserNode] else []) ++
         (if st.inputAudioContext.isSome then [Effect.closeContext CtxKind.inputCtx] else []) ++
         (if st.outputAudioContext.isSome then [Effect.closeContext CtxKind.outputCtx] else []) ++
         st.sources.map Effect.stopSource) := by
  simp [disconnect]

theorem disconnect_no_onError (st : LiveClient) (msg : String) :
    Effect.onError msg ∉ (disconnect st).2 := by
  rw [disconnect_effects_shape]
  intro h
  simp at h

theorem disconnect_no_error_state (st : LiveClient) :
    Effect.stateChange ConnectionState.ERROR ∉ (disconnect st).2 := by
  rw [disconnect_effects_shape]
  intro h
  simp at h

theorem quantize_range (x : ℚ) : -32768 ≤ quantize x ∧ quantize x ≤ 32767 := by
  unfold quantize; omega

theorem quantize_dequantize_eq (n : ℤ) (h1 : -32768 ≤ n) (h2 : n ≤ 32767) :
    quantize (dequantize n) = n := by
  unfold quantize dequantize
  have hne : (32768 : ℚ) ≠ 0 := by norm_num
  rw [div_mul_cancel₀ _ hne]
  rw [Int.floor_int_add]
  norm_num
  omega

theorem dequantize_quantize_close (x : ℚ) (h1 : -1 ≤ x) (h2 : x ≤ 1) :
    |dequantize (quantize x) - x| ≤ 1 / 32768 := by
  unfold quantize dequantize
  set y := x * 32768 with hy
  have hy1 : (-32768 : ℚ) ≤ y := by rw [hy]; nlinarith
  have hy2 : y ≤ 32768 := by rw [hy]; nlinarith
  set f := ⌊y + 1/2⌋ with hf
  have hfl : (f : ℚ) ≤ y + 1/2 := Int.floor_le _
  have hfu : y + 1/2 < (f : ℚ) + 1 := Int.lt_floor_add_one _
  have hfge : (-32768 : ℤ) ≤ f := by
    rw [hf, Int.le_floor]
    push_cast
    linarith
  have hxy : x = y / 32768 := by rw [hy]; field_simp
  by_cases hc : f ≤ 32767
  · have hq : max (-32768) (min 32767 f) = f := by omega
    rw [hq, hxy]
    have heq : (f : ℚ) / 32768 - y / 32768 = ((f : ℚ) - y) / 32768 := by ring
    rw [heq, abs_div, abs_of_pos (by norm_num : (0:ℚ) < 32768)]
    rw [div_le_div_iff₀ (by norm_num) (by norm_num)]
    have habs : |(f : ℚ) - y| ≤ 1 := by rw [abs_le]; constructor <;> linarith
    nlinarith [habs]
  · have hq : max (-32768) (min 32767 f) = 32767 := by omega
    have hfc : (32768 : ℚ) ≤ (f : ℚ) := by exact_mod_cast (by omega : (32768:ℤ) ≤ f)
    rw [hq, hxy]
    push_cast
    have heq : (32767 : ℚ) / 32768 - y / 32768 = ((32767 : ℚ) - y) / 32768 := by ring
    rw [heq, abs_div, abs_of_pos (by norm_num : (0:ℚ) < 32768)]
    rw [div_le_div_iff₀ (by norm_num) (by norm_num)]
    have habs : |(32767 : ℚ) - y| ≤ 1 := by rw [abs_le]; constructor <;> linarith
    nlinarith [habs]

theorem int16ToBytes_lt (n : ℤ) :
    (int16ToBytes n).1 < 256 ∧ (int16ToBytes n).2 < 256 := by
  unfold int16ToBytes
  have h1 : 0 ≤ n % 65536 := Int.emod_nonneg n (by norm_num)
  have h2 : n % 65536 < 65536 := Int.emod_lt_of_pos n (by norm_num)
  constructor
  · simp only []
    omega
  · simp only []
    omega

theorem bytesToInt16_range (lo hi : Nat) (h1 : lo < 256) (h2 : hi < 256) :
    -32768 ≤ bytesToInt16 lo hi ∧ bytesToInt16 lo hi ≤ 32767 := by
  simp only [bytesToInt16]
  split <;> omega

theorem int16ToBytes_bytesToInt16 (lo hi : Nat) (h1 : lo < 256) (h2 : hi < 256) :
    int16ToBytes (bytesToInt16 lo hi) = (lo, hi) := by
  simp only [int16ToBytes, bytesToInt16]
  split
  · have h : ((lo + 256 * hi : Nat) : ℤ) % 65536 = (lo + 256 * hi : Nat) := by omega
    rw [h]
    simp only [Prod.mk.injEq]
    omega
  · have h : (((lo + 256 * hi : Nat) : ℤ) - 65536) % 65536 =
        ((lo + 256 * hi : Nat) : ℤ) - 65536 + 65536 := by omega
    rw [h]
    simp only [Prod.mk.injEq]
    omega

theorem bytesToInt16_int16ToBytes (n : ℤ) (h1 : -32768 ≤ n) (h2 : n ≤ 32767) :
    bytesToInt16 (int16ToBytes n).1 (int16ToBytes n).2 = n := by
  simp only [bytesToInt16, int16ToBytes]
  have hm1 : 0 ≤ n % 65536 := Int.emod_nonneg n (by norm_num)
  have hm2 : n % 65536 < 65536 := Int.emod_lt_of_pos n (by norm_num)
  have hval : n % 65536 = n ∨ n % 65536 = n + 65536 := by omega
  split <;> omega

theorem decodeFrame_encodeFrame : ∀ b : List ℚ, (∀ x ∈ b, -1 ≤ x ∧ x ≤ 1) →
    ∃ b', decodeFrame (encodeFrame b) = some b' ∧
      List.Forall₂ (fun x y => |x - y| ≤ 1 / 32768) b b'
  | [], _ => ⟨[], by simp [encodeFrame, decodeFrame], List.Forall₂.nil⟩
  | x :: rest, h => by
      obtain ⟨t, ht, hfa⟩ :=
        decodeFrame_encodeFrame rest (fun z hz => h z (List.mem_cons_of_mem _ hz))
      have hq := quantize_range x
      have hb := bytesToInt16_int16ToBytes (quantize x) hq.1 hq.2
      refine ⟨dequantize (quantize x) :: t, ?_, ?_⟩
      · simp only [encodeFrame, decodeFrame, ht, hb]
        rfl
      · have hcl := dequantize_quantize_close x (h x (List.mem_cons_self x rest)).1
          (h x (List.mem_cons_self x rest)).2
        rw [abs_sub_comm] at hcl
        exact List.Forall₂.cons hcl hfa

theorem encodeFrame_decodeFrame : ∀ w : List Nat, (∀ y ∈ w, y < 256) →
    ∀ s, decodeFrame w = some s → encodeFrame s = w
  | [], _, s, hd => by
      simp only [decodeFrame, Option.some.injEq] at hd
      rw [← hd]
      rfl
  | [_], _, _, hd => by
      simp only [decodeFrame] at hd
      exact Option.noConfusion hd
  | lo :: hi :: rest, hv, s, hd => by
      simp only [decodeFrame, Option.map_eq_some'] at hd
      obtain ⟨t, ht, hs⟩ := hd
      have hlo : lo < 256 := hv lo (by simp)
      have hhi : hi < 256 := hv hi (by simp)
      have hr := bytesToInt16_range lo hi hlo hhi
      have ih := encodeFrame_decodeFrame rest (fun y hy => hv y (by simp [hy])) t ht
      rw [← hs]
      simp only [encodeFrame]
      rw [quantize_dequantize_eq _ hr.1 hr.2, int16ToBytes_bytesToInt16 lo hi hlo hhi, ih]

/-! ## Claim theorems -/

/-- C1: every inbound audio chunk is scheduled at
`start = max(nextPlaybackTime, deviceNow)` taken at scheduling time, and
`nextPlaybackTime` becomes `start + duration`; hence for two chunks
scheduled consecutively with no interruption,
`start2 ≥ start1 + d1`, with equality whenever the device clock has not
overtaken `nextPlaybackTime` between the arrivals. -/
theorem C1_scheduler_start_time
    (st : LiveClient) (m1 m2 : LiveServerMessage) (now1 now2 d1 d2 : ℚ)
    (ha1 : truthy m1.inlineAudioData = true) (hi1 : m1.interrupted = false)
    (ha2 : truthy m2.inlineAudioData = true) (hi2 : m2.interrupted = false)
    (hc : st.outputAudioContext.isSome = true) :
    Effect.startSource st.nextId (max st.nextStartTime now1) ∈
      (handleMessage st m1 now1 (.ok d1)).2 ∧
    (handleMessage st m1 now1 (.ok d1)).1.nextStartTime =
      max st.nextStartTime now1 + d1 ∧
    Effect.startSource (handleMessage st m1 now1 (.ok d1)).1.nextId
        (max (handleMessage st m1 now1 (.ok d1)).1.nextStartTime now2) ∈
      (handleMessage (handleMessage st m1 now1 (.ok d1)).1 m2 now2 (.ok d2)).2 ∧
    max st.nextStartTime now1 + d1 ≤
      max (handleMessage st m1 now1 (.ok d1)).1.nextStartTime now2 ∧
    (now2 ≤ (handleMessage st m1 now1 (.ok d1)).1.nextStartTime →
      max (handleMessage st m1 now1 (.ok d1)).1.nextStartTime now2 =
        max st.nextStartTime now1 + d1) := by
  have hr1 := handleMessage_ok_fst st m1 now1 d1 ha1 hc hi1
  have hc2 : (handleMessage st m1 now1 (.ok d1)).1.outputAudioContext.isSome = true := by
    rw [handleMessage_ctx]; exact hc
  refine ⟨handleMessage_ok_mem st m1 now1 d1 ha1 hc hi1, ?_, ?_, ?_, ?_⟩
  · rw [hr1]
  · exact handleMessage_ok_mem _ m2 now2 d2 ha2 hc2 hi2
  · rw [hr1]
    exact le_max_left _ _
  · intro hle
    rw [hr1] at hle ⊢
    exact max_eq_left hle

/-- C1 witness: two 1-second chunks on an idle connected client at device
times 1 and 2. -/
theorem C1_scheduler_start_time_witness :
    truthy msgAudio.inlineAudioData = true ∧ msgAudio.interrupted = false ∧
    clientOut.outputAudioContext.isSome = true ∧
    max clientOut.nextStartTime 1 + 1 ≤
      max (handleMessage clientOut msgAudio 1 (.ok 1)).1.nextStartTime 2 :=
  ⟨by decide, by decide, by decide,
   (C1_scheduler_start_time clientOut msgAudio msgAudio 1 2 1 1
      (by decide) (by decide) (by decide) (by decide) (by decide)).2.2.2.1⟩

/-- C2: after an interruption message is processed, every unit that was in
the active set has received a stop, the active set is empty,
`nextPlaybackTime = 0`, and a chunk scheduled afterwards starts at
`max(0, deviceNow) ≥ deviceNow` rather than at the old timeline position. -/
theorem C2_interruption_reset
    (st : LiveClient) (m : LiveServerMessage) (now : ℚ) (oc : DecodeOutcome)
    (hi : m.interrupted = true)
    (m2 : LiveServerMessage) (now2 d2 : ℚ)
    (ha2 : truthy m2.inlineAudioData = true) (hi2 : m2.interrupted = false)
    (hc : st.outputAudioContext.isSome = true) :
    (handleMessage st m now oc).1.sources = [] ∧
    (handleMessage st m now oc).1.nextStartTime = 0 ∧
    (∀ id ∈ st.sources, Effect.stopSource id ∈ (handleMessage st m now oc).2) ∧
    Effect.startSource (handleMessage st m now oc).1.nextId
        (max (handleMessage st m now oc).1.nextStartTime now2) ∈
      (handleMessage (handleMessage st m now oc).1 m2 now2 (.ok d2)).2 ∧
    now2 ≤ max (handleMessage st m now oc).1.nextStartTime now2 := by
  have hfst := handleMessage_interrupted_fst st m now oc hi
  have hc2 : (handleMessage st m now oc).1.outputAudioContext.isSome = true := by
    rw [handleMessage_ctx]; exact hc
  exact ⟨hfst.1, hfst.2, handleMessage_interrupted_stops st m now oc hi,
    handleMessage_ok_mem _ m2 now2 d2 ha2 hc2 hi2, le_max_right _ _⟩

/-- C2 witness: a client with two pending units receives the interruption
flag, then a fresh 1-second chunk at device time 4. -/
theorem C2_interruption_reset_witness :
    msgInterrupt.interrupted = true ∧
    clientBusy.outputAudioContext.isSome = true ∧
    (handleMessage clientBusy msgInterrupt 3 .b64Fail).1.sources = [] ∧
    (handleMessage clientBusy msgInterrupt 3 .b64Fail).1.nextStartTime = 0 := by
  have h := C2_interruption_reset clientBusy msgInterrupt 3 .b64Fail (by decide)
    msgAudio 4 1 (by decide) (by decide) (by decide)
  exact ⟨by decide, by decide, h.1, h.2.1⟩

/-- C4 counterexample: a remote-channel close on a freshly constructed
client produces only the `DISCONNECTED` state change of the teardown — no
`onError` invocation and no `ERROR` state transition, contradicting the
claim that `SessionClosed` produces both. -/
theorem C4_close_counterexample :
    (handleClose client0).2 = [Effect.stateChange ConnectionState.DISCONNECTED] := by
  simp [handleClose, disconnect, client0]

/-- C4 amended: only the `connect` catch path invokes `onError` and
transitions to `ERROR` (before teardown); a mid-session channel error
invokes `onError` with the classified message and then tears down straight
to `DISCONNECTED` without ever entering `ERROR`; a remote-channel close
performs the plain teardown with neither an `onError` invocation nor an
`ERROR` transition. -/
theorem C4_error_propagation_amended (st : LiveClient) (e : JsError) (raw : Option String) :
    (connectFailure st raw).2 =
      Effect.onError (mapConnectErrorMsg raw) ::
        Effect.stateChange ConnectionState.ERROR :: (disconnect st).2 ∧
    (handleError st e).2 = Effect.onError (mapSessionErrorMsg e) :: (disconnect st).2 ∧
    Effect.stateChange ConnectionState.ERROR ∉ (handleError st e).2 ∧
    (handleClose st).2 = (disconnect st).2 ∧
    (∀ msg, Effect.onError msg ∉ (handleClose st).2) ∧
    Effect.stateChange ConnectionState.ERROR ∉ (handleClose st).2 := by
  refine ⟨rfl, rfl, ?_, rfl, ?_, ?_⟩
  · intro h
    rcases List.mem_cons.mp h with h | h
    · exact Effect.noConfusion h
    · exact disconnect_no_error_state st h
  · exact fun msg => disconnect_no_onError st msg
  · exact disconnect_no_error_state st

/-- C5 counterexample: a chunk whose audio decode fails, arriving when the
device clock (5) is ahead of `nextPlaybackTime` (0), does alter
`nextPlaybackTime` — the clamp to the device clock happens before the
decode call. -/
theorem C5_decode_failure_counterexample :
    (handleMessage clientOut msgAudio 5 DecodeOutcome.decodeFail).1.nextStartTime ≠
      clientOut.nextStartTime := by
  have h : truthy (some "QUJDRA") = true := by decide
  norm_num [handleMessage, scheduleAudio, clientOut, msgAudio, h, transcriptEffects]

/-- C5 amended: when decoding an individual chunk fails, the chunk is
dropped — no playback unit is created or started, the active set is
unchanged, `onError` is never invoked and no state change is emitted — but
`nextPlaybackTime` has already been clamped to
`max(nextPlaybackTime, deviceNow)`; it never decreases and is never
advanced by the faulty chunk's duration. -/
theorem C5_decode_failure_amended (st : LiveClient) (m : LiveServerMessage) (now : ℚ)
    (ha : truthy m.inlineAudioData = true) (hc : st.outputAudioContext.isSome = true)
    (hi : m.interrupted = false) :
    (handleMessage st m now .decodeFail).1 =
      { st with nextStartTime := max st.nextStartTime now } ∧
    st.nextStartTime ≤ (handleMessage st m now .decodeFail).1.nextStartTime ∧
    (handleMessage st m now .decodeFail).1.sources = st.sources ∧
    (∀ id t, Effect.startSource id t ∉ (handleMessage st m now .decodeFail).2) ∧
    (∀ msg, Effect.onError msg ∉ (handleMessage st m now .decodeFail).2) ∧
    (∀ cs, Effect.stateChange cs ∉ (handleMessage st m now .decodeFail).2) := by
  have hfst : (handleMessage st m now .decodeFail).1 =
      { st with nextStartTime := max st.nextStartTime now } := by
    simp [handleMessage, scheduleAudio, ha, hc, hi]
  have heff : (handleMessage st m now .decodeFail).2 = transcriptEffects m := by
    simp [handleMessage, scheduleAudio, ha, hc, hi]
  refine ⟨hfst, ?_, ?_, ?_, ?_, ?_⟩
  · rw [hfst]; exact le_max_left _ _
  · rw [hfst]
  · intro id t h
    rw [heff] at h
    obtain ⟨t', u', ht⟩ := mem_transcriptEffects m _ h
    exact Effect.noConfusion ht
  · intro msg h
    rw [heff] at h
    obtain ⟨t', u', ht⟩ := mem_transcriptEffects m _ h
    exact Effect.noConfusion ht
  · intro cs h
    rw [heff] at h
    obtain ⟨t', u', ht⟩ := mem_transcriptEffects m _ h
    exact Effect.noConfusion ht

/-- C5 witness: the amended statement at the concrete failing chunk. -/
theorem C5_decode_failure_amended_witness :
    truthy msgAudio.inlineAudioData = true ∧
    (handleMessage clientOut msgAudio 5 .decodeFail).1 =
      { clientOut with nextStartTime := max clientOut.nextStartTime 5 } :=
  ⟨by decide,
   (C5_decode_failure_amended clientOut msgAudio 5 (by decide) (by decide) (by decide)).1⟩

/-- C6 counterexample: a decoded chunk of duration 0 does create a playback
unit — the source is registered in the active set (and started),
contradicting the claim that no unit is created. -/
theorem C6_empty_chunk_counterexample :
    (handleMessage clientOut msgAudio 0 (.ok 0)).1.sources ≠ clientOut.sources := by
  have h : truthy (some "QUJDRA") = true := by decide
  simp [handleMessage, scheduleAudio, clientOut, msgAudio, h]

/-- C6 amended: a zero-duration chunk does not advance `nextPlaybackTime`
beyond the `max(nextPlaybackTime, deviceNow)` clamp, but it does create a
playback unit: a source is started at the clamped time and appended to the
active set. -/
theorem C6_empty_chunk_amended (st : LiveClient) (m : LiveServerMessage) (now : ℚ)
    (ha : truthy m.inlineAudioData = true) (hc : st.outputAudioContext.isSome = true)
    (hi : m.interrupted = false) :
    (handleMessage st m now (.ok 0)).1.nextStartTime = max st.nextStartTime now ∧
    (handleMessage st m now (.ok 0)).1.sources = st.sources ++ [st.nextId] ∧
    Effect.startSource st.nextId (max st.nextStartTime now) ∈
      (handleMessage st m now (.ok 0)).2 := by
  have hfst := handleMessage_ok_fst st m now 0 ha hc hi
  refine ⟨?_, ?_, handleMessage_ok_mem st m now 0 ha hc hi⟩
  · rw [hfst]; simp
  · rw [hfst]

/-- C6 witness: the amended statement at a concrete zero-duration chunk. -/
theorem C6_empty_chunk_amended_witness :
    truthy msgAudio.inlineAudioData = true ∧
    (handleMessage clientOut msgAudio 0 (.ok 0)).1.sources =
      clientOut.sources ++ [clientOut.nextId] :=
  ⟨by decide,
   (C6_empty_chunk_amended clientOut msgAudio 0 (by decide) (by decide) (by decide)).2.1⟩

/-- C7: across every operation of a session — chunk scheduling (with any
decode outcome), natural playback completion, visualization sampling,
teardown, channel close and channel error — `nextPlaybackTime` never
decreases; the only operation that can decrease it is a message carrying
the explicit interruption flag (which resets it to 0). -/
theorem C7_next_time_monotone (st : LiveClient) (op : Op) (hd : opDurNonneg op) :
    (isInterruption op = false →
      st.nextStartTime ≤ (applyOp st op).nextStartTime) ∧
    ((applyOp st op).nextStartTime < st.nextStartTime → isInterruption op = true) := by
  have hmono : isInterruption op = false →
      st.nextStartTime ≤ (applyOp st op).nextStartTime := by
    intro hni
    rcases op with ⟨m, now, oc⟩ | id | _ | _ | _ | e
    · have hi : m.interrupted = false := hni
      by_cases hcond : (truthy m.inlineAudioData && st.outputAudioContext.isSome) = true
      · rcases oc with _ | _ | d
        · simp [applyOp, handleMessage, hi, hcond, scheduleAudio]
        · simp [applyOp, handleMessage, hi, hcond, scheduleAudio, le_max_left]
        · have hdd : 0 ≤ d := hd
          have hle := le_max_left st.nextStartTime now
          simp only [applyOp, handleMessage, hi, hcond, Bool.false_eq_true,
            if_false, if_true, scheduleAudio]
          linarith
      · simp [applyOp, handleMessage, hi, hcond]
    · simp [applyOp, handleEnded]
    · simp only [applyOp, visualize]
      split_ifs <;> simp
    · simp [applyOp, disconnect]
    · simp [applyOp, handleClose, disconnect]
    · simp [applyOp, handleError, disconnect]
  refine ⟨hmono, ?_⟩
  intro hlt
  by_contra hne
  have := hmono (by simpa using hne)
  linarith

/-- C7 witness: a non-interrupting 1-second chunk on an idle client does
not decrease the timeline cursor. -/
theorem C7_next_time_monotone_witness :
    opDurNonneg (Op.message msgAudio 5 (.ok 1)) ∧
    isInterruption (Op.message msgAudio 5 (.ok 1)) = false ∧
    clientOut.nextStartTime ≤
      (applyOp clientOut (Op.message msgAudio 5 (.ok 1))).nextStartTime := by
  have h0 : opDurNonneg (Op.message msgAudio 5 (.ok 1)) := by
    simp only [opDurNonneg]; norm_num
  exact ⟨h0, by decide,
    (C7_next_time_monotone clientOut (Op.message msgAudio 5 (.ok 1)) h0).1 (by decide)⟩

/-- C8: teardown is idempotent and partial-state safe — one `disconnect`
releases every owned handle (fields nulled, active set cleared), a second
`disconnect` reaches exactly the same state, each release effect is emitted
precisely when the corresponding resource was held (absent resources are
skipped by the guard), and every pending unit receives a stop. -/
theorem C8_teardown_idempotent (st : LiveClient) :
    (disconnect st).1.sessionPromise = none ∧
    (disconnect st).1.inputAudioContext = none ∧
    (disconnect st).1.outputAudioContext = none ∧
    (disconnect st).1.processor = none ∧
    (disconnect st).1.source = none ∧
    (disconnect st).1.mediaStream = none ∧
    (disconnect st).1.sources = [] ∧
    (disconnect (disconnect st).1).1 = (disconnect st).1 ∧
    (st.mediaStream = none → Effect.stopTracks ∉ (disconnect st).2) ∧
    (st.mediaStream.isSome = true → Effect.stopTracks ∈ (disconnect st).2) ∧
    (st.inputAudioContext = none →
      Effect.closeContext CtxKind.inputCtx ∉ (disconnect st).2) ∧
    (st.inputAudioContext.isSome = true →
      Effect.closeContext CtxKind.inputCtx ∈ (disconnect st).2) ∧
    (st.outputAudioContext = none →
      Effect.closeContext CtxKind.outputCtx ∉ (disconnect st).2) ∧
    (st.outputAudioContext.isSome = true →
      Effect.closeContext CtxKind.outputCtx ∈ (disconnect st).2) ∧
    (∀ id ∈ st.sources, Effect.stopSource id ∈ (disconnect st).2) := by
  refine ⟨rfl, rfl, rfl, rfl, rfl, rfl, rfl, rfl, ?_, ?_, ?_, ?_, ?_, ?_, ?_⟩
  · intro hnone h
    rw [disconnect_effects_shape] at h
    simp [hnone] at h
  · intro hsome
    rw [disconnect_effects_shape]
    simp [hsome]
  · intro hnone h
    rw [disconnect_effects_shape] at h
    simp [hnone] at h
  · intro hsome
    rw [disconnect_effects_shape]
    simp [hsome]
  · intro hnone h
    rw [disconnect_effects_shape] at h
    simp [hnone] at h
  · intro hsome
    rw [disconnect_effects_shape]
    simp [hsome]
  · intro id hid
    rw [disconnect_effects_shape]
    simp only [List.mem_cons, List.mem_append]
    exact Or.inr (Or.inr (List.mem_map.mpr ⟨id, hid, rfl⟩))

/-- C8 witness: disconnecting a client that never acquired anything emits
no release for the absent stream, and a second disconnect of a mid-playback
client changes nothing further. -/
theorem C8_teardown_idempotent_witness :
    client0.mediaStream = none ∧
    Effect.stopTracks ∉ (disconnect client0).2 ∧
    (disconnect (disconnect clientBusy).1).1 = (disconnect clientBusy).1 :=
  ⟨rfl, (C8_teardown_idempotent client0).2.2.2.2.2.2.2.2.1 rfl,
   (C8_teardown_idempotent clientBusy).2.2.2.2.2.2.2.1⟩

/-- C10: every call of `disconnect()` — including on a client that never
connected and on repeated consecutive calls — emits
`onStateChange(DISCONNECTED)` as its first effect, before any resource
release. -/
theorem C10_disconnect_notifies_first (st : LiveClient) :
    (∃ rest, (disconnect st).2 =
      Effect.stateChange ConnectionState.DISCONNECTED :: rest) ∧
    (∃ rest, (disconnect (disconnect st).1).2 =
      Effect.stateChange ConnectionState.DISCONNECTED :: rest) :=
  ⟨⟨_, disconnect_effects_shape st⟩, ⟨_, disconnect_effects_shape _⟩⟩

/-- C9: codec round-trip — decoding an encoded normalized sample buffer
reproduces it within the 16-bit quantization tolerance 1/32768, and
encoding a decoded wire byte buffer is bit-exact. -/
theorem C9_codec_roundtrip :
    (∀ b : List ℚ, (∀ x ∈ b, -1 ≤ x ∧ x ≤ 1) →
      ∃ b', decodeFrame (encodeFrame b) = some b' ∧
        List.Forall₂ (fun x y => |x - y| ≤ 1 / 32768) b b') ∧
    (∀ w : List Nat, (∀ y ∈ w, y < 256) →
      ∀ s, decodeFrame w = some s → encodeFrame s = w) :=
  ⟨decodeFrame_encodeFrame, encodeFrame_decodeFrame⟩

/-- C9 witness: the round-trips at a concrete sample buffer and a concrete
wire buffer. -/
theorem C9_codec_roundtrip_witness :
    (∃ b', decodeFrame (encodeFrame [(1:ℚ)/2, -1, 1, 0]) = some b' ∧
      List.Forall₂ (fun x y => |x - y| ≤ 1 / 32768) [(1:ℚ)/2, -1, 1, 0] b') ∧
    encodeFrame [(0:ℚ)] = [0, 0] := by
  constructor
  · exact C9_codec_roundtrip.1 [(1:ℚ)/2, -1, 1, 0] (by norm_num)
  · refine C9_codec_roundtrip.2 [0, 0] (by norm_num) [(0:ℚ)] ?_
    norm_num [decodeFrame, bytesToInt16, dequantize]

end Caladrius
